import Mathlib

/-!
# Verification of the SlicerImageAugmentator augmentation pipeline

Shallow embedding of the core logic of the repository:

* `SlicerAugmentatorLib/SlicerAugmentatorDataset.py`
  (`SlicerAugmentatorDataset.load`, `.apply_transform`,
  `.apply_dict_transform`, `.__getitem__`, `.__len__`);
* `SlicerAugmentator.py` (`SlicerAugmentatorLogic.process` and
  `SlicerAugmentatorLogic.preview` batch drivers: per-case error policy,
  preview truncation to the first case, and per-transform persistence of
  the mask results).

Tensors (`torch.Tensor`) are modelled as a list of integer samples:
the claims observe a tensor only through equality and through
`Tensor.any()` (is some element non-zero), both of which are preserved
by the dtype cast `.float()` and the device move `.to(device)`, so these
two operations are modelled as value-preserving.
-/

set_option autoImplicit false

namespace SlicerAugmentator

/-- A loaded volume: the in-memory tensor produced by
`sitk.GetArrayFromImage` + `torch.tensor` (SlicerAugmentatorDataset.py,
lines 28-31).  Only the element values are observable in the claims. -/
structure Volume where
  data : List Int
deriving DecidableEq, Repr, Inhabited

/-- `torch.Tensor.any()`: true iff some element is non-zero
(used at SlicerAugmentator.py line 208: `msk.any()`). -/
def Volume.any (v : Volume) : Bool :=
  v.data.any (fun x => x ≠ 0)

/-- `tensor.to(device)`: a device move preserves the element values. -/
def Volume.to (v : Volume) (_device : String) : Volume := v

/-- `tensor.float()`: the dtype cast preserves the element values
(SlicerAugmentatorDataset.py line 43). -/
def Volume.float (v : Volume) : Volume := v

/-- The structured descriptor returned by MONAI's
`transform.get_transform_info()`; only its `"class"` field is read
(SlicerAugmentatorDataset.py lines 38 and 51). -/
structure TransformInfo where
  cls : String
deriving DecidableEq, Repr

/-- An opaque MONAI transform object.  `isRandomizable` models
`isinstance(transform, RandomizableTransform)`;
`getTransformInfo = none` models the `AttributeError` path where
`get_transform_info` is missing; `typeName` is the transform's own type
name used by the naming fallback.  The three application fields are the
transform's opaque semantics in the three ways the engine invokes it:
jointly on the dict `{img, mask}`, on the dict `{img}` alone
(projected back at key `"img"`), and directly on a tensor. -/
structure Transform where
  isRandomizable : Bool
  getTransformInfo : Option TransformInfo
  typeName : String
  applyPair : Volume → Volume → Volume × Volume
  applyImg : Volume → Volume
  applySingle : Volume → Volume

instance : Inhabited Transform :=
  ⟨{ isRandomizable := false
     getTransformInfo := none
     typeName := "Identity"
     applyPair := fun i m => (i, m)
     applyImg := id
     applySingle := id }⟩

/-- One entry of `transformedImages` / `transformedMasks`:
`[transform_name, transformedImg]` (SlicerAugmentatorDataset.py line 45). -/
abbrev TransformResult := String × Volume

/-- A character allowed in a path-safe identifier (ASCII letter, digit or
underscore), stated on the code point so that arithmetic reasoning stays
in `Nat`. -/
def isIdentChar (c : Char) : Bool :=
  decide ((48 ≤ c.toNat ∧ c.toNat ≤ 57) ∨ (65 ≤ c.toNat ∧ c.toNat ≤ 90) ∨
    (97 ≤ c.toNat ∧ c.toNat ≤ 122) ∨ c.toNat = 95)

/-- ASCII lower-casing of one character (case normalisation). -/
def toLowerAscii (c : Char) : Char :=
  if 65 ≤ c.toNat ∧ c.toNat ≤ 90 then Char.ofNat (c.toNat + 32) else c

/-- A non-empty string all of whose characters are path-safe. -/
def isPathSafeName (s : String) : Bool :=
  !s.data.isEmpty && s.data.all isIdentChar

/-- A plausible Python (possibly module-qualified) type name: non-empty,
every character an identifier character or a dot, and the last character
an identifier character. -/
def isPyQualName (s : String) : Bool :=
  match s.data.reverse with
  | [] => false
  | c :: _ => isIdentChar c && s.data.all (fun d => isIdentChar d || d = '.')

/-- Modelled from the spec: `sanitizeTransformName` lives in
`SlicerAugmentatorLib/SlicerAugmentatorUtils.py`, which is not among the
provided sources.  Following the spec's naming rule — "fall back to
sanitizing the transform's own type name (strip library-specific
suffixes/prefixes, normalize casing) into a short identifier suitable
for use as a file-path segment" — the model keeps the last dot-separated
segment of the type name (stripping the module prefix), strips a
trailing `Transform` suffix when a proper one is present, and lower-cases
the result.  This definition keeps the last dot-separated segment. -/
def lastSegment (cs : List Char) : List Char :=
  (cs.reverse.takeWhile (fun c => c ≠ '.')).reverse

/-- Modelled from the spec: see `sanitizeCore`.  Strip a trailing
`Transform` suffix when a proper, shorter one is present. -/
def stripSuffixTransform (seg : List Char) : List Char :=
  if "Transform".data.length < seg.length ∧
      seg.drop (seg.length - "Transform".data.length) = "Transform".data then
    seg.take (seg.length - "Transform".data.length)
  else seg

/-- Modelled from the spec: see `lastSegment`.  The whole sanitisation:
last segment, suffix strip, case normalisation. -/
def sanitizeCore (cs : List Char) : List Char :=
  (stripSuffixTransform (lastSegment cs)).map toLowerAscii

/-- Modelled from the spec: see `sanitizeCore`. -/
def sanitizeTransformName (typeName : String) : String :=
  ⟨sanitizeCore typeName.data⟩

/-- The naming step shared by `apply_transform` and
`apply_dict_transform` (SlicerAugmentatorDataset.py lines 37-41 and
50-54): `transform.get_transform_info()["class"]` when the introspection
method exists, otherwise (the `AttributeError` branch) the sanitized
type name. -/
def transformName (t : Transform) : String :=
  match t.getTransformInfo with
  | some info => info.cls
  | none => sanitizeTransformName t.typeName

/-- Truthiness of the optional path string: Python's `if (path):` is
false for `None` and for the empty string. -/
def pathTruthy : Option String → Bool
  | none => false
  | some p => !p.isEmpty

/-- The body of `SlicerAugmentatorDataset.load` before the exception
handler (SlicerAugmentatorDataset.py lines 27-32): a truthy path is
decoded by the external reader (`sitk.ReadImage` + conversion), whose
failure is an exception, modelled as `Except.error`; a falsy path
returns `None` without touching the reader. -/
def load_body (decode : String → Except String Volume) (path : Option String) :
    Except String (Option Volume) :=
  if pathTruthy path then (decode (path.getD "")).map some else .ok none

/-- `SlicerAugmentatorDataset.load` (lines 25-34): the bare `except:`
turns any reader failure into `None`, so `load` is total and never
raises. -/
def load (decode : String → Except String Volume) (path : Option String) :
    Option Volume :=
  match load_body decode path with
  | .ok v => v
  | .error _ => none

/-- `SlicerAugmentatorDataset.apply_transform` (lines 36-47): name the
transform, apply it directly to `img.float()`, and append
`[transform_name, transformedImg]` to the accumulator list. -/
def apply_transform (t : Transform) (img : Volume)
    (transformedList : List TransformResult) : List TransformResult :=
  let transform_name := transformName t
  transformedList ++ [(transform_name, t.applySingle img.float)]

/-- The `data_dict` argument of `apply_dict_transform`: the Python dict
`{"img": ..., "mask": ...}` with the mask entry optional. -/
structure DataDict where
  img : Volume
  mask : Option Volume

/-- `SlicerAugmentatorDataset.apply_dict_transform` (lines 49-66).  When
a masks accumulator is supplied, the transform is applied once to the
whole dict and the two resulting tensors are appended under the same
name to the two accumulators; otherwise the transform is applied to the
img-only dict and the result's `"img"` entry is appended, the second
component of the returned pair being a fresh empty list.  (When a masks
accumulator is supplied the call sites always pass a dict that contains
a mask; the impossible combination is left as the identity.) -/
def apply_dict_transform (t : Transform) (d : DataDict)
    (transformedImages : List TransformResult)
    (transformedMasks : Option (List TransformResult)) :
    List TransformResult × List TransformResult :=
  let transform_name := transformName t
  match transformedMasks with
  | some masks =>
    match d.mask with
    | some m =>
      let p := t.applyPair d.img m
      (transformedImages ++ [(transform_name, p.1)],
       masks ++ [(transform_name, p.2)])
    | none => (transformedImages, masks)
  | none =>
    (transformedImages ++ [(transform_name, t.applyImg d.img)], [])

/-- The state of `SlicerAugmentatorDataset` (lines 16-20).  `device`
holds the value stored by `__init__`; its normalisation
(`extract_device_number`, in the Utils collaborator outside the provided
sources) is not observed by any claim, so the stored string is kept
opaque.  Path entries are `Option String` so that a `None` entry is
representable. -/
structure SlicerAugmentatorDataset where
  imgPaths : List (Option String)
  maskPaths : Option (List (Option String))
  transformations : List Transform
  device : String

/-- `SlicerAugmentatorDataset.__len__` (lines 22-23). -/
def SlicerAugmentatorDataset.len (ds : SlicerAugmentatorDataset) : Nat :=
  ds.imgPaths.length

/-- The image loaded for case `idx` (`__getitem__` line 83).  The source
indexes `self.imgPaths[idx]`; cases are always in range (the driver
iterates `range(len(dataset))`), modelled with `getD`. -/
def loadedImg (ds : SlicerAugmentatorDataset)
    (decode : String → Except String Volume) (idx : Nat) : Option Volume :=
  load decode (ds.imgPaths.getD idx none)

/-- The mask loaded for case `idx` (`__getitem__` lines 81, 84-85):
`mask` stays `None` unless `maskPaths` is not `None` and non-empty. -/
def loadedMask (ds : SlicerAugmentatorDataset)
    (decode : String → Except String Volume) (idx : Nat) : Option Volume :=
  match ds.maskPaths with
  | some mps => if 0 < mps.length then load decode (mps.getD idx none) else none
  | none => none

/-- One iteration of the transform loop of `__getitem__` (lines 87-98):
the four consecutive `if` branches, each updating the pair of
accumulators.  `img != None` / `mask == None` on tensors behave as
identity tests in PyTorch, modelled by the `Option` matches. -/
def getItemStep (dev : String) (img mask : Option Volume)
    (acc : List TransformResult × List TransformResult) (t : Transform) :
    List TransformResult × List TransformResult :=
  -- lines 88-89: img and mask present, randomizable ⇒ joint dict application
  let acc1 :=
    match img, mask with
    | some i, some m =>
      if t.isRandomizable then
        apply_dict_transform t ⟨i.to dev, some (m.to dev)⟩ acc.1 (some acc.2)
      else acc
    | _, _ => acc
  -- lines 91-92: img present, mask absent, randomizable ⇒ img-only dict
  let acc2 :=
    match img, mask with
    | some i, none =>
      if t.isRandomizable then
        apply_dict_transform t ⟨i.to dev, none⟩ acc1.1 none
      else acc1
    | _, _ => acc1
  -- lines 94-95: img present, not randomizable ⇒ direct application to img
  let acc3 :=
    match img with
    | some i =>
      if !t.isRandomizable then (apply_transform t (i.to dev) acc2.1, acc2.2)
      else acc2
    | none => acc2
  -- lines 97-98: mask present, not randomizable ⇒ direct application to mask
  match mask with
  | some m =>
    if !t.isRandomizable then (acc3.1, apply_transform t (m.to dev) acc3.2)
    else acc3
  | none => acc3

/-- `SlicerAugmentatorDataset.__getitem__` (lines 68-100): load image and
optional mask, then run the transform loop starting from two empty
accumulators, returning `(transformedImages, transformedMasks)`. -/
def SlicerAugmentatorDataset.getItem (ds : SlicerAugmentatorDataset)
    (decode : String → Except String Volume) (idx : Nat) :
    List TransformResult × List TransformResult :=
  ds.transformations.foldl
    (getItemStep ds.device (loadedImg ds decode idx) (loadedMask ds decode idx))
    ([], [])

/-! ## The batch driver (`SlicerAugmentator.py`, `SlicerAugmentatorLogic`) -/

/-- One persistence action of `SlicerAugmentatorLogic.process` for one
case: `save(img...)` or `save(msk...)` at transform index `idx`
(SlicerAugmentator.py lines 206-209). -/
inductive SaveAction where
  | saveImage (idx : Nat) (v : Volume)
  | saveMask (idx : Nat) (v : Volume)
deriving DecidableEq, Repr

/-- The per-case fan-out of `SlicerAugmentatorLogic.process`
(SlicerAugmentator.py lines 192-209): `originalCaseMask` is read only
when `transformedMasks` is non-empty (truthiness of the list, line 192,
modelled by its Boolean availability — the read itself is an external
reader call); the loop runs over `range(len(transformedImages))`; the
image at position `i` is always saved; the mask at position `i` is
saved only when a mask pack exists at `i` (line 196) and
`originalCaseMask and msk != None and msk.any()` holds (line 208 —
`msk != None` is true for every tensor). -/
def processCaseSaves (transformedImages transformedMasks : List TransformResult) :
    List SaveAction :=
  (List.range transformedImages.length).flatMap fun i =>
    if i < transformedMasks.length then
      if !transformedMasks.isEmpty && (transformedMasks.getD i default).2.any then
        [SaveAction.saveImage i (transformedImages.getD i default).2,
         SaveAction.saveMask i (transformedMasks.getD i default).2]
      else [SaveAction.saveImage i (transformedImages.getD i default).2]
    else [SaveAction.saveImage i (transformedImages.getD i default).2]

/-- Whether the per-case fan-out of `process` writes the mask at
transform index `i`. -/
def maskSavedAt (transformedImages transformedMasks : List TransformResult)
    (i : Nat) : Bool :=
  (processCaseSaves transformedImages transformedMasks).any fun a =>
    match a with
    | .saveMask j _ => j == i
    | _ => false

/-- The result of `SlicerAugmentatorLogic.process` as far as control
flow is observable: the case indices whose handling was started, the
exception that escaped to the caller (if any), and whether the final
`infoLabel.setText(elapsed)` (line 218) was reached. -/
structure ProcessOutcome where
  attempted : List Nat
  raised : Option String
  elapsedReported : Bool
deriving DecidableEq, Repr

/-- The case loop of `process` (SlicerAugmentator.py lines 188-215): the
body of each case is an opaque fallible handler; its
`except Exception as e: raise e` clause re-raises, so an error stops the
loop and propagates, and no later case is started. -/
def processRun (handle : Nat → Except String Unit) :
    List Nat → List Nat × Option String
  | [] => ([], none)
  | i :: rest =>
    match handle i with
    | .ok _ =>
      let r := processRun handle rest
      (i :: r.1, r.2)
    | .error e => ([i], some e)

/-- `SlicerAugmentatorLogic.process` (lines 162-219), after the dataset
is built: iterate all case indices; the elapsed-time message is set only
when the loop finishes without an escaping exception. -/
def processBatch (numCases : Nat) (handle : Nat → Except String Unit) :
    ProcessOutcome :=
  let r := processRun handle (List.range numCases)
  { attempted := r.1, raised := r.2, elapsedReported := r.2.isNone }

/-- The result of `SlicerAugmentatorLogic.preview` as far as control
flow is observable. -/
structure PreviewOutcome where
  attempted : List Nat
  logged : List String
  elapsedReported : Bool
deriving DecidableEq, Repr

/-- The case loop of `preview` (SlicerAugmentator.py lines 243-272): the
`except Exception as e: print(e)` clause logs the error and the loop
continues with the next case. -/
def previewRun (handle : Nat → Except String Unit) :
    List Nat → List Nat × List String
  | [] => ([], [])
  | i :: rest =>
    let tail := previewRun handle rest
    match handle i with
    | .ok _ => (i :: tail.1, tail.2)
    | .error e => (i :: tail.1, e :: tail.2)

/-- `SlicerAugmentatorLogic.preview` (lines 221-276), after the dataset
is built: iterate all case indices, log per-case errors, and always
reach the elapsed-time message. -/
def previewBatch (numCases : Nat) (handle : Nat → Except String Unit) :
    PreviewOutcome :=
  let r := previewRun handle (List.range numCases)
  { attempted := r.1, logged := r.2, elapsedReported := true }

/-- The dataset constructed by `preview` (SlicerAugmentator.py line 240):
`SlicerAugmentatorDataset(imgPaths=imgs[:1], maskPaths=masks[:1], ...)`,
the input truncated to the first case. -/
def previewDataset (imgs masks : List (Option String)) (ts : List Transform)
    (dev : String) : SlicerAugmentatorDataset :=
  { imgPaths := imgs.take 1
    maskPaths := some (masks.take 1)
    transformations := ts
    device := dev }

/-- `progressBar.setMaximum(len(dataset))` in `preview`
(SlicerAugmentator.py line 241). -/
def previewProgressMax (imgs masks : List (Option String)) (ts : List Transform)
    (dev : String) : Nat :=
  (previewDataset imgs masks ts dev).len

/-! ## Concrete instances used to evaluate the development -/

/-- A concrete reader: two readable files and failure everywhere else. -/
def demoDecode : String → Except String Volume := fun p =>
  if p = "img.nii" then .ok ⟨[1, 2]⟩
  else if p = "mask.nii" then .ok ⟨[0, 1]⟩
  else .error "unreadable volume"

/-- A randomizable transform named by its introspection descriptor; its
joint application reverses both tensors with the same draw. -/
def tFlip : Transform :=
  { isRandomizable := true
    getTransformInfo := some ⟨"flip"⟩
    typeName := "RandFlipd"
    applyPair := fun i m => (⟨i.data.reverse⟩, ⟨m.data.reverse⟩)
    applyImg := fun i => ⟨i.data.reverse⟩
    applySingle := fun v => ⟨v.data.reverse⟩ }

/-- A deterministic transform named by its introspection descriptor. -/
def tNorm : Transform :=
  { isRandomizable := false
    getTransformInfo := some ⟨"normalize"⟩
    typeName := "NormalizeIntensity"
    applyPair := fun i m => (i, m)
    applyImg := id
    applySingle := id }

/-- A transform lacking the introspection contract, exercising the
naming fallback. -/
def demoFallbackTransform : Transform :=
  { isRandomizable := false
    getTransformInfo := none
    typeName := "monai.transforms.SpatialTransform"
    applyPair := fun i m => (i, m)
    applyImg := id
    applySingle := id }

/-- One case with a readable image and mask, one randomizable and one
deterministic transform, in this order. -/
def demoDS : SlicerAugmentatorDataset :=
  { imgPaths := [some "img.nii"]
    maskPaths := some [some "mask.nii"]
    transformations := [tFlip, tNorm]
    device := "cpu" }

/-- One case whose image fails to decode while the mask is readable. -/
def demoDSImgFail : SlicerAugmentatorDataset :=
  { imgPaths := [some "corrupt.nii"]
    maskPaths := some [some "mask.nii"]
    transformations := [tFlip, tNorm]
    device := "cpu" }

/-- Image decode failure, readable mask, deterministic transforms only. -/
def demoDSDetOnly : SlicerAugmentatorDataset :=
  { imgPaths := [some "corrupt.nii"]
    maskPaths := some [some "mask.nii"]
    transformations := [tNorm]
    device := "cpu" }

/-- A case with an empty mask-path collection. -/
def demoDSNoMask : SlicerAugmentatorDataset :=
  { imgPaths := [some "img.nii"]
    maskPaths := some []
    transformations := [tFlip, tNorm]
    device := "cpu" }

/-- A per-case handler failing at case 1 only. -/
def demoHandle : Nat → Except String Unit := fun i =>
  if i = 1 then .error "boom" else .ok ()

/-- Concrete per-case results for the persistence fan-out: two image
results, one mask result with a non-zero element. -/
def demoTI : List TransformResult := [("flip", ⟨[1]⟩), ("normalize", ⟨[2]⟩)]

/-- See `demoTI`. -/
def demoTM : List TransformResult := [("flip", ⟨[1, 0]⟩)]

/-! ## Characterisation of the transform loop -/

/-- The entry appended to `transformedImages` by one loop iteration when
both image and mask are present. -/
def bothImgEntry (dev : String) (I M : Volume) (t : Transform) : TransformResult :=
  if t.isRandomizable then
    (transformName t, (t.applyPair (I.to dev) (M.to dev)).1)
  else (transformName t, t.applySingle ((I.to dev).float))

/-- The entry appended to `transformedMasks` by one loop iteration when
both image and mask are present. -/
def bothMaskEntry (dev : String) (I M : Volume) (t : Transform) : TransformResult :=
  if t.isRandomizable then
    (transformName t, (t.applyPair (I.to dev) (M.to dev)).2)
  else (transformName t, t.applySingle ((M.to dev).float))

/-- The entry appended to `transformedMasks` by a deterministic transform
when only the mask is present. -/
def maskOnlyEntry (dev : String) (M : Volume) (t : Transform) : TransformResult :=
  (transformName t, t.applySingle ((M.to dev).float))

theorem bothImgEntry_fst (dev : String) (I M : Volume) (t : Transform) :
    (bothImgEntry dev I M t).1 = transformName t := by
  unfold bothImgEntry; split <;> rfl

theorem bothMaskEntry_fst (dev : String) (I M : Volume) (t : Transform) :
    (bothMaskEntry dev I M t).1 = transformName t := by
  unfold bothMaskEntry; split <;> rfl

theorem getItemStep_both (dev : String) (I M : Volume)
    (acc : List TransformResult × List TransformResult) (t : Transform) :
    getItemStep dev (some I) (some M) acc t =
      (acc.1 ++ [bothImgEntry dev I M t], acc.2 ++ [bothMaskEntry dev I M t]) := by
  rcases acc with ⟨accI, accM⟩
  cases h : t.isRandomizable <;>
    simp [getItemStep, apply_dict_transform, apply_transform, bothImgEntry,
      bothMaskEntry, h]

theorem foldl_getItemStep_both (dev : String) (I M : Volume)
    (ts : List Transform) (accI accM : List TransformResult) :
    ts.foldl (getItemStep dev (some I) (some M)) (accI, accM) =
      (accI ++ ts.map (bothImgEntry dev I M),
       accM ++ ts.map (bothMaskEntry dev I M)) := by
  induction ts generalizing accI accM with
  | nil => simp
  | cons t ts ih => simp [List.foldl_cons, getItemStep_both, ih]

theorem getItem_both_eq (ds : SlicerAugmentatorDataset)
    (decode : String → Except String Volume) (idx : Nat) (I M : Volume)
    (himg : loadedImg ds decode idx = some I)
    (hmask : loadedMask ds decode idx = some M) :
    ds.getItem decode idx =
      (ds.transformations.map (bothImgEntry ds.device I M),
       ds.transformations.map (bothMaskEntry ds.device I M)) := by
  unfold SlicerAugmentatorDataset.getItem
  rw [himg, hmask, foldl_getItemStep_both]
  simp

theorem getItemStep_imgNone_maskSome (dev : String) (M : Volume)
    (acc : List TransformResult × List TransformResult) (t : Transform) :
    getItemStep dev none (some M) acc t =
      (acc.1,
       if t.isRandomizable then acc.2 else acc.2 ++ [maskOnlyEntry dev M t]) := by
  rcases acc with ⟨accI, accM⟩
  cases h : t.isRandomizable <;>
    simp [getItemStep, apply_transform, maskOnlyEntry, h]

theorem foldl_getItemStep_imgNone (dev : String) (M : Volume)
    (ts : List Transform) (accI accM : List TransformResult) :
    ts.foldl (getItemStep dev none (some M)) (accI, accM) =
      (accI,
       accM ++ (ts.filter (fun t => !t.isRandomizable)).map (maskOnlyEntry dev M)) := by
  induction ts generalizing accM with
  | nil => simp
  | cons t ts ih =>
    cases h : t.isRandomizable <;>
      simp [List.foldl_cons, getItemStep_imgNone_maskSome, h, List.filter_cons, ih]

theorem getItem_imgNone_eq (ds : SlicerAugmentatorDataset)
    (decode : String → Except String Volume) (idx : Nat) (M : Volume)
    (himg : loadedImg ds decode idx = none)
    (hmask : loadedMask ds decode idx = some M) :
    ds.getItem decode idx =
      ([], (ds.transformations.filter (fun t => !t.isRandomizable)).map
        (maskOnlyEntry ds.device M)) := by
  unfold SlicerAugmentatorDataset.getItem
  rw [himg, hmask, foldl_getItemStep_imgNone]
  simp

theorem getItemStep_maskNone_snd (dev : String) (img : Option Volume)
    (acc : List TransformResult × List TransformResult) (t : Transform)
    (h : acc.2 = []) : (getItemStep dev img none acc t).2 = [] := by
  rcases acc with ⟨accI, accM⟩
  simp only at h
  subst h
  cases img <;> cases hr : t.isRandomizable <;>
    simp [getItemStep, apply_dict_transform, apply_transform, hr]

theorem foldl_getItemStep_maskNone_snd (dev : String) (img : Option Volume)
    (ts : List Transform) (acc : List TransformResult × List TransformResult)
    (h : acc.2 = []) : (ts.foldl (getItemStep dev img none) acc).2 = [] := by
  induction ts generalizing acc with
  | nil => exact h
  | cons t ts ih => exact ih _ (getItemStep_maskNone_snd dev img acc t h)

theorem getItem_maskNone_snd (ds : SlicerAugmentatorDataset)
    (decode : String → Except String Volume) (idx : Nat)
    (hmask : loadedMask ds decode idx = none) :
    (ds.getItem decode idx).2 = [] := by
  unfold SlicerAugmentatorDataset.getItem
  rw [hmask]
  exact foldl_getItemStep_maskNone_snd _ _ _ _ rfl

/-! ## Characterisation of the per-case persistence fan-out -/

theorem saveMask_mem_processCaseSaves (tI tM : List TransformResult) (j : Nat)
    (v : Volume) :
    SaveAction.saveMask j v ∈ processCaseSaves tI tM ↔
      j < tI.length ∧ j < tM.length ∧ v = (tM.getD j default).2 ∧ v.any = true := by
  unfold processCaseSaves
  rw [List.mem_flatMap]
  constructor
  · rintro ⟨i, hi, hmem⟩
    rw [List.mem_range] at hi
    by_cases h1 : i < tM.length
    · rw [if_pos h1] at hmem
      by_cases h2 : (!tM.isEmpty && (tM.getD i default).2.any) = true
      · rw [if_pos h2] at hmem
        simp only [List.mem_cons, List.not_mem_nil, or_false] at hmem
        rcases hmem with h | h
        · simp at h
        · rw [SaveAction.saveMask.injEq] at h
          obtain ⟨rfl, rfl⟩ := h
          rw [Bool.and_eq_true] at h2
          exact ⟨hi, h1, rfl, h2.2⟩
      · rw [if_neg h2] at hmem
        simp at hmem
    · rw [if_neg h1] at hmem
      simp at hmem
  · rintro ⟨hjI, hjM, hv, hany⟩
    have hne : tM.isEmpty = false := by
      cases tM with
      | nil => simp at hjM
      | cons a l => rfl
    have hcond : (!tM.isEmpty && (tM.getD j default).2.any) = true := by
      rw [hv] at hany
      rw [hne]
      simpa using hany
    refine ⟨j, List.mem_range.mpr hjI, ?_⟩
    rw [if_pos hjM, if_pos hcond]
    subst hv
    simp

theorem maskSavedAt_iff (tI tM : List TransformResult) (i : Nat)
    (hi : i < tI.length) :
    maskSavedAt tI tM i = true ↔
      i < tM.length ∧ (tM.getD i default).2.any = true := by
  unfold maskSavedAt
  rw [List.any_eq_true]
  constructor
  · rintro ⟨a, ha, hp⟩
    cases a with
    | saveImage j v => simp at hp
    | saveMask j v =>
      have hj : j = i := by simpa using hp
      subst hj
      have h := (saveMask_mem_processCaseSaves tI tM j v).mp ha
      exact ⟨h.2.1, h.2.2.1 ▸ h.2.2.2⟩
  · rintro ⟨h1, h2⟩
    exact ⟨SaveAction.saveMask i (tM.getD i default).2,
      (saveMask_mem_processCaseSaves tI tM i _).mpr ⟨hi, h1, rfl, h2⟩, by simp⟩

/-! ## Control flow of the two batch drivers -/

theorem processRun_ok (handle : Nat → Except String Unit) (l : List Nat)
    (h : ∀ i ∈ l, handle i = .ok ()) : processRun handle l = (l, none) := by
  induction l with
  | nil => rfl
  | cons a l ih =>
    simp [processRun, h a (List.mem_cons_self a l),
      ih (fun i hi => h i (List.mem_cons_of_mem a hi))]

theorem processRun_first_error (handle : Nat → Except String Unit)
    (la : List Nat) (k : Nat) (lb : List Nat) (e : String)
    (hok : ∀ i ∈ la, handle i = .ok ()) (he : handle k = .error e) :
    processRun handle (la ++ k :: lb) = (la ++ [k], some e) := by
  induction la with
  | nil => simp [processRun, he]
  | cons a la ih =>
    simp [processRun, hok a (List.mem_cons_self a la),
      ih (fun i hi => hok i (List.mem_cons_of_mem a hi))]

theorem previewRun_fst (handle : Nat → Except String Unit) (l : List Nat) :
    (previewRun handle l).1 = l := by
  induction l with
  | nil => rfl
  | cons a l ih => cases h : handle a <;> simp [previewRun, h, ih]

theorem previewRun_logged_mem (handle : Nat → Except String Unit) (l : List Nat)
    (k : Nat) (e : String) (hk : k ∈ l) (he : handle k = .error e) :
    e ∈ (previewRun handle l).2 := by
  induction l with
  | nil => cases hk
  | cons a l ih =>
    rcases List.mem_cons.mp hk with h | h
    · subst h
      simp [previewRun, he]
    · cases ha : handle a <;> simp [previewRun, ha, ih h]

/-! ## The naming fallback -/

theorem isIdentChar_ofNat_lower (n : Nat) (hn1 : 65 ≤ n) (hn2 : n ≤ 90) :
    isIdentChar (Char.ofNat (n + 32)) = true := by
  have hv : (n + 32).isValidChar := Or.inl (by omega)
  have ht : (Char.ofNat (n + 32)).toNat = n + 32 := by
    simp [Char.ofNat, hv, Char.ofNatAux, Char.toNat, UInt32.toNat, UInt32.ofNat,
      BitVec.toNat_ofNat]
  simp only [isIdentChar, ht, decide_eq_true_eq]
  omega

theorem isIdentChar_toLowerAscii (c : Char) (h : isIdentChar c = true) :
    isIdentChar (toLowerAscii c) = true := by
  unfold toLowerAscii
  by_cases hc : 65 ≤ c.toNat ∧ c.toNat ≤ 90
  · rw [if_pos hc]
    exact isIdentChar_ofNat_lower c.toNat hc.1 hc.2
  · rw [if_neg hc]
    exact h

theorem isIdentChar_ne_dot (c : Char) (h : isIdentChar c = true) : c ≠ '.' := by
  intro he
  subst he
  simp [isIdentChar] at h

theorem lastSegment_nonempty_ident (cs : List Char)
    (hall : ∀ d ∈ cs, isIdentChar d = true ∨ d = '.')
    (c : Char) (rest : List Char) (hrev : cs.reverse = c :: rest)
    (hc : isIdentChar c = true) :
    lastSegment cs ≠ [] ∧ ∀ d ∈ lastSegment cs, isIdentChar d = true := by
  unfold lastSegment
  constructor
  · rw [hrev]
    simp [List.takeWhile_cons, isIdentChar_ne_dot c hc]
  · intro d hd
    rw [List.mem_reverse] at hd
    have hdcs : d ∈ cs := List.mem_reverse.mp (List.takeWhile_subset _ hd)
    have hnd : d ≠ '.' := by simpa using List.mem_takeWhile_imp hd
    rcases hall d hdcs with h | h
    · exact h
    · exact absurd h hnd

theorem stripSuffixTransform_nonempty_ident (seg : List Char) (hne : seg ≠ [])
    (hid : ∀ d ∈ seg, isIdentChar d = true) :
    stripSuffixTransform seg ≠ [] ∧
      ∀ d ∈ stripSuffixTransform seg, isIdentChar d = true := by
  unfold stripSuffixTransform
  by_cases hif : ("Transform".data.length < seg.length ∧
      seg.drop (seg.length - "Transform".data.length) = "Transform".data)
  · rw [if_pos hif]
    constructor
    · intro hnil
      rw [← List.length_eq_zero, List.length_take] at hnil
      omega
    · intro d hd
      exact hid d (List.take_subset _ _ hd)
  · rw [if_neg hif]
    exact ⟨hne, hid⟩

theorem sanitizeCore_nonempty_ident (cs : List Char)
    (hall : ∀ d ∈ cs, isIdentChar d = true ∨ d = '.')
    (c : Char) (rest : List Char) (hrev : cs.reverse = c :: rest)
    (hc : isIdentChar c = true) :
    sanitizeCore cs ≠ [] ∧ ∀ d ∈ sanitizeCore cs, isIdentChar d = true := by
  unfold sanitizeCore
  have hseg := lastSegment_nonempty_ident cs hall c rest hrev hc
  have hstr := stripSuffixTransform_nonempty_ident (lastSegment cs) hseg.1 hseg.2
  constructor
  · intro hnil
    rw [List.map_eq_nil_iff] at hnil
    exact hstr.1 hnil
  · intro d hd
    rcases List.mem_map.mp hd with ⟨d0, hd0, hde⟩
    subst hde
    exact isIdentChar_toLowerAscii d0 (hstr.2 d0 hd0)

theorem sanitizeTransformName_pathSafe (s : String) (h : isPyQualName s = true) :
    isPathSafeName (sanitizeTransformName s) = true := by
  unfold isPyQualName at h
  cases hrev : s.data.reverse with
  | nil => rw [hrev] at h; cases h
  | cons c rest =>
    rw [hrev, Bool.and_eq_true] at h
    have hc : isIdentChar c = true := h.1
    have hall : ∀ d ∈ s.data, isIdentChar d = true ∨ d = '.' := by
      have := h.2
      rw [List.all_eq_true] at this
      intro d hd
      have hd2 := this d hd
      rw [Bool.or_eq_true] at hd2
      rcases hd2 with h1 | h1
      · exact Or.inl h1
      · exact Or.inr (by simpa using h1)
    have hmain := sanitizeCore_nonempty_ident s.data hall c rest hrev hc
    unfold sanitizeTransformName isPathSafeName
    simp only [Bool.and_eq_true, Bool.not_eq_true', List.all_eq_true]
    constructor
    · rw [Bool.eq_false_iff]
      intro hemp
      exact hmain.1 (List.isEmpty_iff.mp hemp)
    · exact hmain.2

/-! ## The claims -/

/-- Claim C1: for a case whose image and mask both load, `__getitem__`
returns one entry per configured transform in both output lists, in
configuration order — randomizable and deterministic results interleave
in configuration order rather than being grouped by kind — with the
entry of transform `t` carrying `t`'s name; in particular for the
configuration `[flip (randomizable), normalize (deterministic)]` the
outputs are `[(flip, T1), (normalize, T2)]` and
`[(flip, M1), (normalize, M2)]`. -/
theorem getItem_results_in_config_order (ds : SlicerAugmentatorDataset)
    (decode : String → Except String Volume) (idx : Nat) (I M : Volume)
    (himg : loadedImg ds decode idx = some I)
    (hmask : loadedMask ds decode idx = some M) :
    ds.getItem decode idx =
      (ds.transformations.map (bothImgEntry ds.device I M),
       ds.transformations.map (bothMaskEntry ds.device I M)) ∧
    (ds.getItem decode idx).1.map Prod.fst =
      ds.transformations.map transformName ∧
    (ds.getItem decode idx).2.map Prod.fst =
      ds.transformations.map transformName := by
  have h := getItem_both_eq ds decode idx I M himg hmask
  refine ⟨h, ?_, ?_⟩ <;> rw [h]
  · rw [List.map_map]
    exact List.map_congr_left fun t _ => bothImgEntry_fst ds.device I M t
  · rw [List.map_map]
    exact List.map_congr_left fun t _ => bothMaskEntry_fst ds.device I M t

/-- Witness for C1: the flip/normalize scenario evaluated on a concrete
case. -/
theorem getItem_results_in_config_order_witness :
    demoDS.getItem demoDecode 0 =
      ([("flip", ⟨[2, 1]⟩), ("normalize", ⟨[1, 2]⟩)],
       [("flip", ⟨[1, 0]⟩), ("normalize", ⟨[0, 1]⟩)]) := by
  have h :=
    (getItem_results_in_config_order demoDS demoDecode 0 ⟨[1, 2]⟩ ⟨[0, 1]⟩ rfl rfl).1
  rw [h]
  rfl

/-- Claim C2: when the image fails to load (Absent) but the mask loads,
no transform is applied on the image branch (`transformedImages` is
empty), while the case proceeds on the mask branch: every configured
transform applicable to the mask branch — i.e. every deterministic
transform, the only kind the engine ever applies to a mask without an
image — contributes its mask result, in configuration order. -/
theorem getItem_img_absent_mask_proceeds (ds : SlicerAugmentatorDataset)
    (decode : String → Except String Volume) (idx : Nat) (M : Volume)
    (himg : loadedImg ds decode idx = none)
    (hmask : loadedMask ds decode idx = some M) :
    (ds.getItem decode idx).1 = [] ∧
    (ds.getItem decode idx).2 =
      (ds.transformations.filter (fun t => !t.isRandomizable)).map
        (maskOnlyEntry ds.device M) := by
  have h := getItem_imgNone_eq ds decode idx M himg hmask
  rw [h]
  exact ⟨rfl, rfl⟩

/-- Witness for C2: image decode failure with a readable mask. -/
theorem getItem_img_absent_mask_proceeds_witness :
    (demoDSImgFail.getItem demoDecode 0).1 = [] ∧
    (demoDSImgFail.getItem demoDecode 0).2 =
      (demoDSImgFail.transformations.filter (fun t => !t.isRandomizable)).map
        (maskOnlyEntry demoDSImgFail.device ⟨[0, 1]⟩) :=
  getItem_img_absent_mask_proceeds demoDSImgFail demoDecode 0 ⟨[0, 1]⟩ rfl rfl

/-- Claim C3: with both image and mask present, both output lists have
one entry per configured transform, and every randomizable transform's
image and mask entries sit at the same position, carry the same
transform name, and are the two components of one joint dictionary-style
application (`applyPair`) over the device-placed image and mask. -/
theorem randomizable_joint_entries (ds : SlicerAugmentatorDataset)
    (decode : String → Except String Volume) (idx : Nat) (I M : Volume)
    (himg : loadedImg ds decode idx = some I)
    (hmask : loadedMask ds decode idx = some M) :
    (ds.getItem decode idx).1.length = ds.transformations.length ∧
    (ds.getItem decode idx).2.length = ds.transformations.length ∧
    ∀ k, k < ds.transformations.length →
      (ds.transformations.getD k default).isRandomizable = true →
      (ds.getItem decode idx).1.getD k default =
        (transformName (ds.transformations.getD k default),
         ((ds.transformations.getD k default).applyPair (I.to ds.device)
           (M.to ds.device)).1) ∧
      (ds.getItem decode idx).2.getD k default =
        (transformName (ds.transformations.getD k default),
         ((ds.transformations.getD k default).applyPair (I.to ds.device)
           (M.to ds.device)).2) := by
  have h := getItem_both_eq ds decode idx I M himg hmask
  rw [h]
  refine ⟨by simp, by simp, ?_⟩
  intro k hk hrand
  have hts : ds.transformations.getD k default = ds.transformations[k] := by
    rw [List.getD_eq_getElem?_getD, List.getElem?_eq_getElem hk]
    rfl
  rw [hts] at hrand ⊢
  have hmap1 : (ds.transformations.map (bothImgEntry ds.device I M)).getD k default =
      bothImgEntry ds.device I M ds.transformations[k] := by
    rw [List.getD_eq_getElem?_getD, List.getElem?_map, List.getElem?_eq_getElem hk]
    rfl
  have hmap2 : (ds.transformations.map (bothMaskEntry ds.device I M)).getD k default =
      bothMaskEntry ds.device I M ds.transformations[k] := by
    rw [List.getD_eq_getElem?_getD, List.getElem?_map, List.getElem?_eq_getElem hk]
    rfl
  rw [hmap1, hmap2]
  unfold bothImgEntry bothMaskEntry
  rw [if_pos hrand, if_pos hrand]
  exact ⟨rfl, rfl⟩

/-- Witness for C3: the randomizable transform at position 0 of the
concrete configuration. -/
theorem randomizable_joint_entries_witness :
    (demoDS.getItem demoDecode 0).1.getD 0 default = ("flip", ⟨[2, 1]⟩) ∧
    (demoDS.getItem demoDecode 0).2.getD 0 default = ("flip", ⟨[1, 0]⟩) := by
  have h :=
    (randomizable_joint_entries demoDS demoDecode 0 ⟨[1, 2]⟩ ⟨[0, 1]⟩ rfl rfl).2.2
      0 (by decide) rfl
  exact h

/-- Claim C4: a case without a mask — no mask-path collection, an empty
mask-path collection, or an entry that fails to load (including a null
entry) — yields an empty `transformedMasks`, whatever the configured
transform list. -/
theorem no_mask_transformedMasks_empty (ds : SlicerAugmentatorDataset)
    (decode : String → Except String Volume) (idx : Nat)
    (h : ds.maskPaths = none ∨ ds.maskPaths = some [] ∨
      loadedMask ds decode idx = none) :
    (ds.getItem decode idx).2 = [] := by
  have hm : loadedMask ds decode idx = none := by
    rcases h with h | h | h
    · unfold loadedMask
      rw [h]
    · unfold loadedMask
      rw [h]
      simp
    · exact h
  exact getItem_maskNone_snd ds decode idx hm

/-- Witness for C4: an empty mask-path collection. -/
theorem no_mask_transformedMasks_empty_witness :
    (demoDSNoMask.getItem demoDecode 0).2 = [] :=
  no_mask_transformedMasks_empty demoDSNoMask demoDecode 0 (Or.inr (Or.inl rfl))

/-- Claim C5: `load` never raises — it always returns an optional
volume: a falsy (null or empty) path yields Absent with the reader body
succeeding trivially (no decode attempted, so the result does not depend
on the reader at all), a decode failure yields Absent instead of a
raised exception, and any exception inside the body is converted to
Absent by the bare `except`. -/
theorem load_absent_never_raises (decode : String → Except String Volume) :
    (∀ path, pathTruthy path = false → load decode path = none) ∧
    (∀ path, pathTruthy path = false → load_body decode path = .ok none) ∧
    (∀ d2 : String → Except String Volume, ∀ path, pathTruthy path = false →
      load decode path = load d2 path) ∧
    (∀ p e, decode p = .error e → load decode (some p) = none) ∧
    (∀ path e, load_body decode path = .error e → load decode path = none) := by
  refine ⟨?_, ?_, ?_, ?_, ?_⟩
  · intro path h
    simp [load, load_body, h]
  · intro path h
    simp [load_body, h]
  · intro d2 path h
    simp [load, load_body, h]
  · intro p e h
    cases hp : pathTruthy (some p) <;> simp [load, load_body, hp, h, Except.map]
  · intro path e h
    simp [load, h]

/-- Witness for C5: null path, empty path and a decode failure all
return Absent under the concrete reader. -/
theorem load_absent_never_raises_witness :
    load demoDecode none = none ∧
    load demoDecode (some "") = none ∧
    load demoDecode (some "corrupt.nii") = none :=
  ⟨(load_absent_never_raises demoDecode).1 none rfl,
   (load_absent_never_raises demoDecode).1 (some "") rfl,
   (load_absent_never_raises demoDecode).2.2.2.1 "corrupt.nii" "unreadable volume"
     rfl⟩

/-- Claim C6: when handling case `k` raises (all earlier cases
succeeding), `process` propagates the exception to the caller, attempts
no later case, and never reaches the elapsed-time report, while
`preview` catches and logs the exception, continues through every case,
and still reports the elapsed time at the end. -/
theorem batch_error_policy (n k : Nat) (e : String)
    (handle : Nat → Except String Unit) (hk : k < n)
    (he : handle k = .error e) (hok : ∀ j, j < k → handle j = .ok ()) :
    processBatch n handle =
      { attempted := List.range (k + 1), raised := some e,
        elapsedReported := false } ∧
    (previewBatch n handle).attempted = List.range n ∧
    e ∈ (previewBatch n handle).logged ∧
    (previewBatch n handle).elapsedReported = true := by
  have hsplit : List.range n =
      List.range k ++ k :: (List.range (n - (k + 1))).map (fun x => (k + 1) + x) := by
    have h1 : n = (k + 1) + (n - (k + 1)) := by omega
    conv_lhs => rw [h1]
    rw [List.range_add, List.range_succ]
    simp [List.append_assoc]
  refine ⟨?_, ?_, ?_, rfl⟩
  · have hpr := processRun_first_error handle (List.range k) k
      ((List.range (n - (k + 1))).map (fun x => (k + 1) + x)) e
      (fun i hi => hok i (List.mem_range.mp hi)) he
    unfold processBatch
    rw [hsplit, hpr]
    rw [← List.range_succ]
    rfl
  · unfold previewBatch
    simp [previewRun_fst]
  · unfold previewBatch
    exact previewRun_logged_mem handle (List.range n) k e (List.mem_range.mpr hk) he

/-- Witness for C6: three cases with a failure at case 1. -/
theorem batch_error_policy_witness :
    processBatch 3 demoHandle =
      { attempted := [0, 1], raised := some "boom", elapsedReported := false } ∧
    (previewBatch 3 demoHandle).attempted = [0, 1, 2] ∧
    "boom" ∈ (previewBatch 3 demoHandle).logged ∧
    (previewBatch 3 demoHandle).elapsedReported = true := by
  have h := batch_error_policy 3 1 "boom" demoHandle (by omega) rfl
    (fun j hj => by
      have hj0 : j = 0 := by omega
      subst hj0
      rfl)
  exact h

/-- Claim C7: `preview` constructs the dataset over exactly the first
case — the image and mask path lists are truncated to one entry — so the
dataset's case count, and with it the progress-bar maximum, is 1. -/
theorem preview_constructs_first_case_only (imgs masks : List (Option String))
    (ts : List Transform) (dev : String) (h : imgs ≠ []) :
    (previewDataset imgs masks ts dev).imgPaths = [imgs.headD none] ∧
    (previewDataset imgs masks ts dev).maskPaths = some (masks.take 1) ∧
    (previewDataset imgs masks ts dev).len = 1 ∧
    previewProgressMax imgs masks ts dev = 1 := by
  cases imgs with
  | nil => exact absurd rfl h
  | cons a l => exact ⟨rfl, rfl, rfl, rfl⟩

/-- Witness for C7: five configured cases, dataset built over one. -/
theorem preview_constructs_first_case_only_witness :
    (previewDataset
        [some "c1.nii", some "c2.nii", some "c3.nii", some "c4.nii", some "c5.nii"]
        [some "m1.nii", some "m2.nii", some "m3.nii", some "m4.nii", some "m5.nii"]
        [tFlip, tNorm] "cpu").imgPaths = [some "c1.nii"] ∧
    previewProgressMax
        [some "c1.nii", some "c2.nii", some "c3.nii", some "c4.nii", some "c5.nii"]
        [some "m1.nii", some "m2.nii", some "m3.nii", some "m4.nii", some "m5.nii"]
        [tFlip, tNorm] "cpu" = 1 := by
  have h := preview_constructs_first_case_only
    [some "c1.nii", some "c2.nii", some "c3.nii", some "c4.nii", some "c5.nii"]
    [some "m1.nii", some "m2.nii", some "m3.nii", some "m4.nii", some "m5.nii"]
    [tFlip, tNorm] "cpu" (by simp)
  exact ⟨h.1, h.2.2.2⟩

/-- Claim C8: over the positions the per-transform output loop actually
iterates (the transform-indexed positions of `transformedImages`), the
mask at position `i` is persisted iff a mask result exists at `i` and it
is non-trivial (`msk.any()`); and an all-zero mask tensor is never
written by the fan-out. -/
theorem process_mask_persisted_iff (tI tM : List TransformResult) :
    (∀ i, i < tI.length →
      (maskSavedAt tI tM i = true ↔
        i < tM.length ∧ (tM.getD i default).2.any = true)) ∧
    (∀ j v, SaveAction.saveMask j v ∈ processCaseSaves tI tM →
      v.any = true) := by
  constructor
  · intro i hi
    exact maskSavedAt_iff tI tM i hi
  · intro j v h
    exact ((saveMask_mem_processCaseSaves tI tM j v).mp h).2.2.2

/-- Witness for C8: the non-trivial mask at position 0 is persisted; the
position with no mask result is not. -/
theorem process_mask_persisted_iff_witness :
    maskSavedAt demoTI demoTM 0 = true ∧ maskSavedAt demoTI demoTM 1 = false := by
  have h := process_mask_persisted_iff demoTI demoTM
  constructor
  · exact (h.1 0 (by decide)).mpr (by decide)
  · cases hb : maskSavedAt demoTI demoTM 1
    · rfl
    · exact absurd ((h.1 1 (by decide)).mp hb) (by decide)

/-- Claim C9: naming always succeeds: the result name is the `"class"`
field of the introspection descriptor when `get_transform_info` is
available, and otherwise the sanitized type name, which — for any
plausible Python type name — is a non-empty path-safe identifier. -/
theorem transform_naming_rule :
    (∀ (t : Transform) (info : TransformInfo), t.getTransformInfo = some info →
      transformName t = info.cls) ∧
    (∀ t : Transform, t.getTransformInfo = none →
      transformName t = sanitizeTransformName t.typeName ∧
      (isPyQualName t.typeName = true →
        isPathSafeName (transformName t) = true)) := by
  constructor
  · intro t info h
    simp [transformName, h]
  · intro t h
    constructor
    · simp [transformName, h]
    · intro hq
      simp only [transformName, h]
      exact sanitizeTransformName_pathSafe t.typeName hq

/-- Witness for C9: a transform without the introspection contract gets
the sanitized, path-safe fallback name. -/
theorem transform_naming_rule_witness :
    transformName demoFallbackTransform =
      sanitizeTransformName "monai.transforms.SpatialTransform" ∧
    isPathSafeName (transformName demoFallbackTransform) = true ∧
    transformName demoFallbackTransform = "spatial" := by
  have h := transform_naming_rule.2 demoFallbackTransform rfl
  exact ⟨h.1, h.2 (by decide), by decide⟩

/-- Claim C10: when the image fails to load, the mask loads, and only
deterministic transforms are configured, `transformedImages` is empty
while `transformedMasks` has one entry per transform; the `process`
per-transform loop, which ranges over `transformedImages` only, then
performs zero iterations and persists nothing — neither image nor
mask — for that case. -/
theorem process_img_absent_nothing_persisted (ds : SlicerAugmentatorDataset)
    (decode : String → Except String Volume) (idx : Nat) (M : Volume)
    (himg : loadedImg ds decode idx = none)
    (hmask : loadedMask ds decode idx = some M)
    (hdet : ∀ t ∈ ds.transformations, t.isRandomizable = false) :
    (ds.getItem decode idx).1 = [] ∧
    (ds.getItem decode idx).2.length = ds.transformations.length ∧
    processCaseSaves (ds.getItem decode idx).1 (ds.getItem decode idx).2 = [] := by
  have h := getItem_imgNone_eq ds decode idx M himg hmask
  have hfil : ds.transformations.filter (fun t => !t.isRandomizable) =
      ds.transformations :=
    List.filter_eq_self.mpr (fun t ht => by rw [hdet t ht]; rfl)
  rw [h, hfil]
  refine ⟨rfl, by simp, ?_⟩
  rfl

/-- Witness for C10: corrupt image, readable mask, one deterministic
transform: a mask result exists but nothing is persisted. -/
theorem process_img_absent_nothing_persisted_witness :
    (demoDSDetOnly.getItem demoDecode 0).1 = [] ∧
    (demoDSDetOnly.getItem demoDecode 0).2.length =
      demoDSDetOnly.transformations.length ∧
    processCaseSaves (demoDSDetOnly.getItem demoDecode 0).1
      (demoDSDetOnly.getItem demoDecode 0).2 = [] :=
  process_img_absent_nothing_persisted demoDSDetOnly demoDecode 0 ⟨[0, 1]⟩ rfl rfl
    (fun t ht => by
      simp only [demoDSDetOnly, List.mem_singleton] at ht
      subst ht
      rfl)

end SlicerAugmentator
